import Mathlib

/-!
Shallow embedding of the inventory application
(Erick01081/Inventario_Tecnirecargas).

JavaScript numbers are modelled as exact rationals extended with the
special values `NaN`, `+Infinity` and `-Infinity`; the claims under study
do not depend on floating-point rounding.  Stateful storage (the local
JSON file, the Vercel KV value, the Supabase table) is modelled by
explicit state passing.  Nondeterministic identifier generation
(`Date.now() + Math.random()...`) is modelled by passing the generated
id as an extra argument.
-/

/-- A JavaScript number: a finite value or one of the IEEE special values. -/
inductive JSNum where
  | num (q : ℚ)
  | nan
  | posInf
  | negInf
deriving DecidableEq, Repr

/-- JavaScript `+` on two numbers. -/
def JSNum.add : JSNum → JSNum → JSNum
  | .num a, .num b => .num (a + b)
  | .num _, .posInf => .posInf
  | .num _, .negInf => .negInf
  | .posInf, .num _ => .posInf
  | .negInf, .num _ => .negInf
  | .posInf, .posInf => .posInf
  | .negInf, .negInf => .negInf
  | .posInf, .negInf => .nan
  | .negInf, .posInf => .nan
  | .nan, _ => .nan
  | _, .nan => .nan

/-- JavaScript `x < 0` on a number (`NaN < 0` is `false`). -/
def JSNum.ltZero : JSNum → Bool
  | .num q => q < 0
  | .negInf => true
  | _ => false

/-- A JavaScript value as it can appear in a parsed JSON request body
field (the cases relevant to the routes under study). -/
inductive JSValue where
  | undef
  | nullv
  | str (s : String)
  | num (n : JSNum)
  | boolean (b : Bool)
deriving DecidableEq, Repr

/-- JavaScript truthiness: `undefined`, `null`, `""`, `0`, `NaN` and
`false` are falsy, everything else is truthy. -/
def JSValue.truthy : JSValue → Bool
  | .undef => false
  | .nullv => false
  | .str s => !s.isEmpty
  | .num (.num q) => q ≠ 0
  | .num .nan => false
  | .num .posInf => true
  | .num .negInf => true
  | .boolean b => b

/-- Embeds `src/types/producto.ts`: the Producto entity. -/
structure Producto where
  id : String
  nombre : String
  marca : String
  inventarioActual : JSNum
deriving DecidableEq, Repr

/-- State of the local JSON file `data/products.json`:
absent, present but unparseable, or present with a parsed product list. -/
inductive FileState where
  | missing
  | corrupt
  | datos (productos : List Producto)
deriving DecidableEq, Repr

/-- Embeds `src/lib/database.ts` `leerProductos`: returns `[]` when the file is
missing, `[]` when `JSON.parse` throws, otherwise the parsed list. -/
def leerProductos : FileState → List Producto
  | .missing => []
  | .corrupt => []
  | .datos l => l

/-- Embeds `src/lib/database.ts` `guardarProductos`: overwrites the file with the
serialized list. -/
def guardarProductos (productos : List Producto) : FileState :=
  .datos productos

/-- Embeds `src/lib/database.ts` `obtenerProductoPorId`: `find` over the list,
`producto || null`. -/
def obtenerProductoPorId (id : String) (fs : FileState) : Option Producto :=
  (leerProductos fs).find? (fun p => p.id == id)

/-- Embeds `src/lib/database.ts` `crearProducto`: reads the list, pushes a new
product built verbatim from the arguments (with the generated id), saves,
and returns the new product. -/
def crearProducto (nombre marca : String) (inventarioInicial : JSNum)
    (idGenerado : String) (fs : FileState) : Producto × FileState :=
  let productos := leerProductos fs
  let nuevoProducto : Producto :=
    { id := idGenerado, nombre := nombre, marca := marca
      inventarioActual := inventarioInicial }
  (nuevoProducto, guardarProductos (productos ++ [nuevoProducto]))

/-- The mutation `productos[indice].inventarioActual += cantidad;
if (... < 0) ... = 0;` applied to one product. -/
def actualizaProducto (cantidad : JSNum) (p : Producto) : Producto :=
  { p with inventarioActual :=
      if (p.inventarioActual.add cantidad).ltZero then .num 0
      else p.inventarioActual.add cantidad }

/-- The `findIndex`-then-mutate core of `actualizarInventario` at the list level:
updates the first product whose id matches, returning `none` when
`findIndex` yields `-1`. -/
def actualizarLista (id : String) (cantidad : JSNum) :
    List Producto → Option (Producto × List Producto)
  | [] => none
  | p :: resto =>
    if p.id == id then
      let nuevo := actualizaProducto cantidad p
      some (nuevo, nuevo :: resto)
    else
      match actualizarLista id cantidad resto with
      | none => none
      | some (q, resto2) => some (q, p :: resto2)

/-- Embeds `src/lib/database.ts` `actualizarInventario`: reads the list; when the
id is absent returns `null` without saving; otherwise adds `cantidad`,
clamps a negative result to `0`, saves, and returns the updated product. -/
def actualizarInventario (id : String) (cantidad : JSNum) (fs : FileState) :
    Option Producto × FileState :=
  match actualizarLista id cantidad (leerProductos fs) with
  | none => (none, fs)
  | some (p, l) => (some p, guardarProductos l)

/-- The `splice`-at-`findIndex` core of `eliminarProducto` at the list level:
removes the first product whose id matches, `none` when absent. -/
def eliminarLista (id : String) : List Producto → Option (List Producto)
  | [] => none
  | p :: resto =>
    if p.id == id then some resto
    else (eliminarLista id resto).map (fun l => p :: l)

/-- Embeds `src/lib/database.ts` `eliminarProducto`: reads the list; when the id
is absent returns `false` without saving; otherwise splices the record
out, saves, and returns `true`. -/
def eliminarProducto (id : String) (fs : FileState) : Bool × FileState :=
  match eliminarLista id (leerProductos fs) with
  | none => (false, fs)
  | some l => (true, guardarProductos l)

/-- Outcome of the `POST /api/productos` handler
(`src/app/api/productos/route.ts`). -/
inductive PostResult where
  | badRequest
  | created (p : Producto)
deriving DecidableEq, Repr

/-- Embeds `src/app/api/productos/route.ts` `POST` with string `nombre` and
`marca` body fields (`!s` on a string is emptiness): rejects with 400 when
`!nombre || !marca || inventarioInicial === undefined`, then when
`typeof inventarioInicial !== 'number' || inventarioInicial < 0`;
otherwise calls `crearProducto` and answers 201 with the new product. -/
def POST (nombre marca : String) (inventarioInicial : JSValue)
    (idGenerado : String) (fs : FileState) : PostResult × FileState :=
  if nombre.isEmpty || marca.isEmpty || inventarioInicial == .undef then
    (.badRequest, fs)
  else
    match inventarioInicial with
    | .num j =>
      if j.ltZero then (.badRequest, fs)
      else
        let r := crearProducto nombre marca j idGenerado fs
        (.created r.1, r.2)
    | _ => (.badRequest, fs)

/-- Outcome of the `PATCH /api/productos/[id]` handler. -/
inductive PatchResult where
  | badRequest
  | notFound
  | ok (p : Producto)
deriving DecidableEq, Repr

/-- The `[id]` route `PATCH` handler: rejects with 400 when
`cantidad === undefined || typeof cantidad !== 'number'` (any value of
number type, `NaN` and the infinities included, passes); otherwise calls
`actualizarInventario`, answering 404 on `null` and 200 otherwise. -/
def PATCH (id : String) (cantidad : JSValue) (fs : FileState) :
    PatchResult × FileState :=
  match cantidad with
  | .num j =>
    match actualizarInventario id j fs with
    | (none, fs2) => (.notFound, fs2)
    | (some p, fs2) => (.ok p, fs2)
  | _ => (.badRequest, fs)

/-- Result of the Vercel KV `kv.get` call: the client threw, the key was
absent (`null`), or a stored list. -/
inductive KVResultado where
  | error (msg : String)
  | vacio
  | datos (productos : List Producto)
deriving DecidableEq, Repr

/-- KV-variant `leerProductosDesdeKV`, KV configured: a thrown error is
caught and masked as `[]`; `productos || []` turns `null` into `[]`. -/
def leerProductosDesdeKV : KVResultado → List Producto
  | .error _ => []
  | .vacio => []
  | .datos l => l

/-- KV-variant `leerProductosDesdeKV`, KV **not** configured (the local
fallback): only when `NODE_ENV === 'development'` is the local file read
(missing or unparseable file falls through to `[]`); in any other mode it
returns `[]` without touching storage. -/
def leerProductosDesdeKVLocal (desarrollo : Bool) (fs : FileState) :
    List Producto :=
  if desarrollo then
    match fs with
    | .datos l => l
    | _ => []
  else []

/-- KV-variant `guardarProductosEnKV`, KV **not** configured: only when
`NODE_ENV === 'development'` is the list written to the local file; in any
other mode the function returns without storing anything. -/
def guardarProductosEnKVLocal (desarrollo : Bool)
    (productos : List Producto) (fs : FileState) : FileState :=
  if desarrollo then .datos productos else fs

/-- KV-variant `crearProducto` on the local fallback path: read, push the
new product, save. -/
def crearProductoKVLocal (desarrollo : Bool) (nombre marca : String)
    (inventarioInicial : JSNum) (idGenerado : String) (fs : FileState) :
    Producto × FileState :=
  let productos := leerProductosDesdeKVLocal desarrollo fs
  let nuevoProducto : Producto :=
    { id := idGenerado, nombre := nombre, marca := marca
      inventarioActual := inventarioInicial }
  (nuevoProducto,
   guardarProductosEnKVLocal desarrollo (productos ++ [nuevoProducto]) fs)

/-- Result of the Supabase `select` call in `leerProductosDesdeSupabase`:
the response carried an `error`, the client threw, or it returned
(possibly `null`) data. -/
inductive SupabaseLectura where
  | errorLectura (msg : String)
  | excepcion (msg : String)
  | datos (productos : Option (List Producto))
deriving DecidableEq, Repr

/-- Supabase-variant `leerProductosDesdeSupabase`, Supabase configured.
The `Except` models JavaScript exception propagation: an `error` response
is logged and masked as `.ok []`, a thrown exception is caught and masked
as `.ok []`, and `data || []` turns `null` into `[]`; no path throws. -/
def leerProductosDesdeSupabase : SupabaseLectura →
    Except String (List Producto)
  | .errorLectura _ => .ok []
  | .excepcion _ => .ok []
  | .datos none => .ok []
  | .datos (some l) => .ok l

/-- Behaviour of the remote Supabase backend during one
`guardarProductosEnSupabase` call: whether the delete-all statement and
the bulk insert statement report an error. -/
structure SupabaseEscritura where
  errorBorrado : Option String
  errorInsercion : Option String
deriving DecidableEq, Repr

/-- Supabase-variant `guardarProductosEnSupabase`, Supabase configured,
with the remote table state passed explicitly.  A delete-all error is
only logged and execution continues; the insert runs only when the list
is nonempty; an insert error is thrown (and rethrown by the outer catch)
with the fixed message. -/
def guardarProductosEnSupabase (backend : SupabaseEscritura)
    (productos : List Producto) (tabla : List Producto) :
    Except String Unit × List Producto :=
  let tabla1 := match backend.errorBorrado with
    | some _ => tabla
    | none => []
  if productos.length > 0 then
    match backend.errorInsercion with
    | some _ => (.error "No se pudo guardar los productos en Supabase", tabla1)
    | none => (.ok (), tabla1 ++ productos)
  else (.ok (), tabla1)

/-- A product's stock is a finite non-negative number (the spec's
`currentStock >= 0` invariant). -/
def stockNoNegativo (p : Producto) : Bool :=
  match p.inventarioActual with
  | .num q => decide (0 ≤ q)
  | .nan => false
  | .posInf => false
  | .negInf => false

/-- On a finite stock `s` and finite delta `d`, the add-then-clamp
mutation yields exactly `max 0 (s + d)`. -/
theorem actualizaProducto_num (d s : ℚ) (p : Producto)
    (h : p.inventarioActual = .num s) :
    actualizaProducto (.num d) p =
      { p with inventarioActual := .num (max 0 (s + d)) } := by
  unfold actualizaProducto
  rw [h]
  show ({ p with inventarioActual :=
      if ((JSNum.num s).add (.num d)).ltZero then .num 0
      else (JSNum.num s).add (.num d) } : Producto) = _
  have hadd : (JSNum.num s).add (.num d) = .num (s + d) := rfl
  rw [hadd]
  rcases le_or_lt 0 (s + d) with h2 | h2
  · have : (JSNum.num (s + d)).ltZero = false := by
      simp [JSNum.ltZero, not_lt.mpr h2]
    rw [this]
    simp [max_eq_right h2]
  · have : (JSNum.num (s + d)).ltZero = true := by
      simp [JSNum.ltZero, h2]
    rw [this]
    simp [max_eq_left h2.le]

/-- When no stored product matches the id, the list-level update finds
nothing. -/
theorem actualizarLista_eq_none (id : String) (c : JSNum) :
    ∀ l : List Producto, (∀ p ∈ l, p.id ≠ id) →
      actualizarLista id c l = none := by
  intro l
  induction l with
  | nil => intro _; rfl
  | cons x resto ih =>
    intro h
    have hx : (x.id == id) = false := by
      simp [h x (List.mem_cons_self x resto)]
    simp [actualizarLista, hx, ih fun p hp => h p (List.mem_cons_of_mem x hp)]

/-- When `find?` locates the first product with the id, the list-level
update succeeds, returns that product mutated, and every element of the
written list is either an old element or the mutated product. -/
theorem actualizarLista_of_find (id : String) (c : JSNum) :
    ∀ (l : List Producto) (p : Producto),
      l.find? (fun q => q.id == id) = some p →
      ∃ l', actualizarLista id c l = some (actualizaProducto c p, l') ∧
        ∀ q ∈ l', q ∈ l ∨ q = actualizaProducto c p := by
  intro l
  induction l with
  | nil => intro p h; simp at h
  | cons x resto ih =>
    intro p h
    by_cases hx : (x.id == id) = true
    · simp only [List.find?_cons, hx] at h
      have hp : p = x := by injection h with h'; exact h'.symm
      subst hp
      refine ⟨actualizaProducto c p :: resto, ?_, ?_⟩
      · simp [actualizarLista, hx]
      · intro q hq
        rcases List.mem_cons.mp hq with hq | hq
        · exact Or.inr hq
        · exact Or.inl (List.mem_cons_of_mem _ hq)
    · have hx' : (x.id == id) = false := by simpa using hx
      simp only [List.find?_cons, hx'] at h
      obtain ⟨l', hl', hmem⟩ := ih p h
      refine ⟨x :: l', by simp [actualizarLista, hx', hl'], ?_⟩
      intro q hq
      rcases List.mem_cons.mp hq with hq | hq
      · exact Or.inl (by simp [hq])
      · rcases hmem q hq with h1 | h1
        · exact Or.inl (List.mem_cons_of_mem _ h1)
        · exact Or.inr h1

/-- C1: for every stored product whose id is targeted (the first match of
`find?`, the one `findIndex` selects) holding a finite stock `s`, and
every finite delta `d`, `actualizarInventario` succeeds and returns the
product updated to `max 0 (s + d)`; consequently, when every stored stock
is non-negative before the call, every stored stock is non-negative after
it, regardless of the magnitude of `d`. -/
theorem actualizarInventario_clamp (id : String) (d s : ℚ) (fs : FileState)
    (p : Producto)
    (hfind : (leerProductos fs).find? (fun q => q.id == id) = some p)
    (hstock : p.inventarioActual = .num s) :
    ∃ fs',
      actualizarInventario id (.num d) fs =
        (some { p with inventarioActual := .num (max 0 (s + d)) }, fs') ∧
      ((∀ q ∈ leerProductos fs, stockNoNegativo q = true) →
        ∀ q ∈ leerProductos fs', stockNoNegativo q = true) := by
  obtain ⟨l', hl', hmem⟩ :=
    actualizarLista_of_find id (.num d) (leerProductos fs) p hfind
  refine ⟨guardarProductos l', ?_, ?_⟩
  · unfold actualizarInventario
    rw [hl', actualizaProducto_num d s p hstock]
  · intro hpre q hq
    have hq' : q ∈ l' := hq
    rcases hmem q hq' with h1 | h1
    · exact hpre q h1
    · rw [h1, actualizaProducto_num d s p hstock]
      simp [stockNoNegativo, le_max_left]

/-- Witness for C1: a stock of 10 adjusted by -100 clamps to 0 and the
non-negativity invariant is preserved. -/
theorem actualizarInventario_clamp_witness :
    ∃ fs',
      actualizarInventario "p1" (.num (-100))
          (.datos [{ id := "p1", nombre := "Laptop", marca := "Dell",
                     inventarioActual := .num 10 }]) =
        (some { ({ id := "p1", nombre := "Laptop", marca := "Dell",
                   inventarioActual := .num 10 } : Producto) with
                inventarioActual := .num (max 0 (10 + (-100))) }, fs') ∧
      ((∀ q ∈ leerProductos
            (.datos [{ id := "p1", nombre := "Laptop", marca := "Dell",
                       inventarioActual := .num 10 }]),
          stockNoNegativo q = true) →
        ∀ q ∈ leerProductos fs', stockNoNegativo q = true) :=
  actualizarInventario_clamp "p1" (-100) 10
    (.datos [{ id := "p1", nombre := "Laptop", marca := "Dell",
               inventarioActual := .num 10 }])
    { id := "p1", nombre := "Laptop", marca := "Dell",
      inventarioActual := .num 10 }
    (by rfl) rfl

/-- C3: for every id absent from the stored collection and every delta
(any number value), `actualizarInventario` returns the `null` sentinel and
the stored file is returned untouched: no placeholder record is created
and no write is performed. -/
theorem actualizarInventario_noEncontrado (id : String) (c : JSNum)
    (fs : FileState) (h : ∀ p ∈ leerProductos fs, p.id ≠ id) :
    actualizarInventario id c fs = (none, fs) := by
  unfold actualizarInventario
  rw [actualizarLista_eq_none id c (leerProductos fs) h]

/-- Witness for C3: adjusting a nonexistent id leaves the single stored
product untouched and reports not-found. -/
theorem actualizarInventario_noEncontrado_witness :
    actualizarInventario "fantasma" (.num 5)
        (.datos [{ id := "p1", nombre := "Laptop", marca := "Dell",
                   inventarioActual := .num 10 }]) =
      (none,
       .datos [{ id := "p1", nombre := "Laptop", marca := "Dell",
                 inventarioActual := .num 10 }]) :=
  actualizarInventario_noEncontrado "fantasma" (.num 5)
    (.datos [{ id := "p1", nombre := "Laptop", marca := "Dell",
               inventarioActual := .num 10 }])
    (by decide)

/-- The list-level removal finds nothing exactly when no product matches
the id. -/
theorem eliminarLista_eq_none_iff (id : String) :
    ∀ l : List Producto,
      eliminarLista id l = none ↔ ∀ p ∈ l, p.id ≠ id := by
  intro l
  induction l with
  | nil => simp [eliminarLista]
  | cons x resto ih =>
    by_cases hx : (x.id == id) = true
    · have hid : x.id = id := by simpa using hx
      simp only [eliminarLista, hx, if_true]
      constructor
      · intro habs
        exact (Option.some_ne_none resto habs).elim
      · intro hall
        exact absurd hid (hall x (List.mem_cons_self x resto))
    · have hx' : (x.id == id) = false := by simpa using hx
      have hid : x.id ≠ id := by simpa using hx'
      simp [eliminarLista, hx', Option.map_eq_none', ih, hid]

/-- Removing a matching product decreases by one the count of products
matching the id. -/
theorem eliminarLista_countP (id : String) :
    ∀ (l l' : List Producto), eliminarLista id l = some l' →
      l.countP (fun p => p.id == id) =
        l'.countP (fun p => p.id == id) + 1 := by
  intro l
  induction l with
  | nil => intro l' h; simp [eliminarLista] at h
  | cons x resto ih =>
    intro l' h
    by_cases hx : (x.id == id) = true
    · simp only [eliminarLista, hx, if_true] at h
      injection h with h'
      subst h'
      simp [List.countP_cons, hx]
    · have hx' : (x.id == id) = false := by simpa using hx
      simp only [eliminarLista, hx', Bool.false_eq_true, if_false,
        Option.map_eq_some'] at h
      obtain ⟨a, ha, rfl⟩ := h
      simp [List.countP_cons, hx', ih a ha]

/-- C2: `eliminarProducto` returns `true` exactly when a product with the
given id is stored (and `false`, not an error, otherwise); when the id is
stored exactly once, deleting twice returns `true` then `false`. -/
theorem eliminarProducto_spec (id : String) (fs : FileState) :
    ((eliminarProducto id fs).1 = true ↔
      ∃ p ∈ leerProductos fs, p.id = id) ∧
    ((leerProductos fs).countP (fun p => p.id == id) = 1 →
      (eliminarProducto id fs).1 = true ∧
      (eliminarProducto id (eliminarProducto id fs).2).1 = false) := by
  constructor
  · cases h : eliminarLista id (leerProductos fs) with
    | none =>
      have hall := (eliminarLista_eq_none_iff id (leerProductos fs)).mp h
      simp only [eliminarProducto, h]
      constructor
      · intro habs
        exact absurd habs (by decide)
      · intro ⟨p, hp, hpid⟩
        exact absurd hpid (hall p hp)
    | some l' =>
      simp only [eliminarProducto, h]
      constructor
      · intro _
        by_contra hno
        push_neg at hno
        have h0 : eliminarLista id (leerProductos fs) = none :=
          (eliminarLista_eq_none_iff id (leerProductos fs)).mpr hno
        rw [h0] at h
        cases h
      · intro _
        trivial
  · intro hc
    cases h : eliminarLista id (leerProductos fs) with
    | none =>
      have hall := (eliminarLista_eq_none_iff id (leerProductos fs)).mp h
      have h0 : (leerProductos fs).countP (fun p => p.id == id) = 0 :=
        List.countP_eq_zero.mpr (by intro a ha; simpa using hall a ha)
      rw [h0] at hc
      cases hc
    | some l' =>
      have hcount := eliminarLista_countP id (leerProductos fs) l' h
      have hl0 : l'.countP (fun p => p.id == id) = 0 := by omega
      have hall : ∀ p ∈ l', p.id ≠ id := by
        intro p hp
        simpa using List.countP_eq_zero.mp hl0 p hp
      have h2 : eliminarLista id l' = none :=
        (eliminarLista_eq_none_iff id l').mpr hall
      constructor
      · simp [eliminarProducto, h]
      · have e1 : eliminarProducto id fs = (true, guardarProductos l') := by
          simp [eliminarProducto, h]
        rw [e1]
        simp [eliminarProducto, guardarProductos, leerProductos, h2]

/-- Witness for C2: with a single stored product, deleting its id twice
returns `true` then `false`. -/
theorem eliminarProducto_spec_witness :
    (eliminarProducto "p1"
        (.datos [{ id := "p1", nombre := "Laptop", marca := "Dell",
                   inventarioActual := .num 10 }])).1 = true ∧
    (eliminarProducto "p1"
        (eliminarProducto "p1"
          (.datos [{ id := "p1", nombre := "Laptop", marca := "Dell",
                     inventarioActual := .num 10 }])).2).1 = false :=
  (eliminarProducto_spec "p1"
      (.datos [{ id := "p1", nombre := "Laptop", marca := "Dell",
                 inventarioActual := .num 10 }])).2 (by decide)

/-- C6: creating a product with a fresh id (one no stored product
carries) and then fetching that id returns a product holding exactly the
supplied name, brand and initial stock. -/
theorem crearProducto_roundTrip (nombre marca : String) (inv : JSNum)
    (idGen : String) (fs : FileState)
    (h : ∀ p ∈ leerProductos fs, p.id ≠ idGen) :
    obtenerProductoPorId idGen (crearProducto nombre marca inv idGen fs).2 =
      some { id := idGen, nombre := nombre, marca := marca,
             inventarioActual := inv } := by
  have hnone : (leerProductos fs).find? (fun p => p.id == idGen) = none :=
    List.find?_eq_none.mpr (by intro x hx; simpa using h x hx)
  show (leerProductos (guardarProductos (leerProductos fs ++
      [{ id := idGen, nombre := nombre, marca := marca,
         inventarioActual := inv }]))).find? (fun p => p.id == idGen) = _
  rw [show leerProductos (guardarProductos (leerProductos fs ++
      [{ id := idGen, nombre := nombre, marca := marca,
         inventarioActual := inv }])) = leerProductos fs ++
      [{ id := idGen, nombre := nombre, marca := marca,
         inventarioActual := inv }] from rfl]
  rw [List.find?_append, hnone]
  simp [List.find?_cons]

/-- Witness for C6: `crearProducto "Laptop" "Dell" 5` followed by
`obtenerProductoPorId` on the fresh id returns name `"Laptop"`, brand
`"Dell"`, stock `5`. -/
theorem crearProducto_roundTrip_witness :
    obtenerProductoPorId "fresh"
        (crearProducto "Laptop" "Dell" (.num 5) "fresh"
          (.datos [{ id := "viejo", nombre := "Mouse", marca := "HP",
                     inventarioActual := .num 2 }])).2 =
      some { id := "fresh", nombre := "Laptop", marca := "Dell",
             inventarioActual := .num 5 } :=
  crearProducto_roundTrip "Laptop" "Dell" (.num 5) "fresh"
    (.datos [{ id := "viejo", nombre := "Mouse", marca := "HP",
               inventarioActual := .num 2 }])
    (by decide)

/-- C10: the storage-layer `crearProducto` performs no validation: for
every name, brand and initial stock — whitespace-only strings, negative,
non-integer and non-finite numbers included — it returns a product
carrying exactly those field values verbatim and appends it to the stored
collection. -/
theorem crearProducto_sinValidacion (nombre marca : String) (inv : JSNum)
    (idGen : String) (fs : FileState) :
    (crearProducto nombre marca inv idGen fs).1 =
      { id := idGen, nombre := nombre, marca := marca,
        inventarioActual := inv } ∧
    (crearProducto nombre marca inv idGen fs).2 =
      .datos (leerProductos fs ++
        [{ id := idGen, nombre := nombre, marca := marca,
           inventarioActual := inv }]) :=
  ⟨rfl, rfl⟩

/-- Counterexample to C4 as stated: a whitespace-only name is truthy in
JavaScript and passes `!nombre`, and a non-integer initial stock is of
number type and not `< 0`; both requests are accepted and persisted
instead of failing with a ValidationError. -/
theorem POST_counterexample :
    (POST " " "Dell" (.num (.num 5)) "id1" .missing).1 =
      .created { id := "id1", nombre := " ", marca := "Dell",
                 inventarioActual := .num 5 } ∧
    (POST "Laptop" "Dell" (.num (.num (5/2))) "id1" .missing).1 =
      .created { id := "id1", nombre := "Laptop", marca := "Dell",
                 inventarioActual := .num (5/2) } := by
  constructor
  · rfl
  · have hj : (JSNum.num ((5:ℚ)/2)).ltZero = false := by
      have h52 : ¬((5:ℚ)/2 < 0) := by norm_num
      simp [JSNum.ltZero, h52]
    have hnb : "Laptop".isEmpty = false := rfl
    have hmb : "Dell".isEmpty = false := rfl
    simp [POST, hnb, hmb, hj, crearProducto]

/-- C4 (amended): the create route rejects with 400 — persisting
nothing — exactly when the supplied name or brand is the empty string
(JavaScript falsiness on strings), or the supplied initialStock is
missing, not of number type, or `< 0` under JavaScript comparison; and
whenever it rejects, the stored state is untouched.  In particular
`("", "Dell", 5)` and `("Laptop", "Dell", -1)` are both rejected, while
whitespace-only names and non-integer numbers are accepted. -/
theorem POST_validacion (nombre marca : String) (inv : JSValue)
    (idGen : String) (fs : FileState) :
    (((POST nombre marca inv idGen fs).1 = .badRequest) ↔
      (nombre = "" ∨ marca = "" ∨ (∀ j : JSNum, inv ≠ .num j) ∨
        (∃ j : JSNum, inv = .num j ∧ j.ltZero = true))) ∧
    ((POST nombre marca inv idGen fs).1 = .badRequest →
      (POST nombre marca inv idGen fs).2 = fs) := by
  by_cases hn : nombre.isEmpty = true
  · have hn' : nombre = "" := (String.isEmpty_iff nombre).mp hn
    exact ⟨⟨fun _ => Or.inl hn', fun _ => by simp [POST, hn]⟩,
      fun _ => by simp [POST, hn]⟩
  · have hn' : ¬ nombre = "" :=
      fun he => hn ((String.isEmpty_iff nombre).mpr he)
    have hnb : nombre.isEmpty = false := by simpa using hn
    by_cases hm : marca.isEmpty = true
    · have hm' : marca = "" := (String.isEmpty_iff marca).mp hm
      exact ⟨⟨fun _ => Or.inr (Or.inl hm'), fun _ => by simp [POST, hm]⟩,
        fun _ => by simp [POST, hm]⟩
    · have hm' : ¬ marca = "" :=
        fun he => hm ((String.isEmpty_iff marca).mpr he)
      have hmb : marca.isEmpty = false := by simpa using hm
      cases inv with
      | undef =>
        refine ⟨⟨fun _ => Or.inr (Or.inr (Or.inl ?_)), fun _ => ?_⟩,
          fun _ => ?_⟩
        · intro j hj
          exact JSValue.noConfusion hj
        · simp [POST]
        · simp [POST]
      | nullv =>
        refine ⟨⟨fun _ => Or.inr (Or.inr (Or.inl ?_)), fun _ => ?_⟩,
          fun _ => ?_⟩
        · intro j hj
          exact JSValue.noConfusion hj
        · simp [POST, hnb, hmb]
        · simp [POST, hnb, hmb]
      | str s =>
        refine ⟨⟨fun _ => Or.inr (Or.inr (Or.inl ?_)), fun _ => ?_⟩,
          fun _ => ?_⟩
        · intro j hj
          exact JSValue.noConfusion hj
        · simp [POST, hnb, hmb]
        · simp [POST, hnb, hmb]
      | boolean b =>
        refine ⟨⟨fun _ => Or.inr (Or.inr (Or.inl ?_)), fun _ => ?_⟩,
          fun _ => ?_⟩
        · intro j hj
          exact JSValue.noConfusion hj
        · simp [POST, hnb, hmb]
        · simp [POST, hnb, hmb]
      | num j =>
        by_cases hj : j.ltZero = true
        · refine ⟨⟨fun _ => Or.inr (Or.inr (Or.inr ⟨j, rfl, hj⟩)),
            fun _ => ?_⟩, fun _ => ?_⟩
          · simp [POST, hnb, hmb, hj]
          · simp [POST, hnb, hmb, hj]
        · have hjf : j.ltZero = false := by simpa using hj
          have hres : (POST nombre marca (.num j) idGen fs).1 =
              .created (crearProducto nombre marca j idGen fs).1 := by
            simp [POST, hnb, hmb, hjf]
          refine ⟨⟨fun habs => ?_, fun hOr => ?_⟩, fun habs => ?_⟩
          · rw [hres] at habs
            exact PostResult.noConfusion habs
          · rcases hOr with h1 | h1 | h1 | h1
            · exact absurd h1 hn'
            · exact absurd h1 hm'
            · exact absurd rfl (h1 j)
            · obtain ⟨j', hj', hlt⟩ := h1
              injection hj' with he
              subst he
              exact absurd hlt (by simp [hjf])
          · rw [hres] at habs
            exact PostResult.noConfusion habs

/-- Witness for the amended C4: `("Laptop", "Dell", -1)` is rejected with
400 and the stored state is untouched. -/
theorem POST_validacion_witness :
    (POST "Laptop" "Dell" (.num (.num (-1))) "idW" .missing).1 =
      .badRequest ∧
    (POST "Laptop" "Dell" (.num (.num (-1))) "idW" .missing).2 =
      .missing := by
  have h := POST_validacion "Laptop" "Dell" (.num (.num (-1))) "idW" .missing
  have hb := h.1.mpr (Or.inr (Or.inr (Or.inr ⟨.num (-1), rfl, by decide⟩)))
  exact ⟨hb, h.2 hb⟩

/-- Counterexample to C5 as stated: `typeof NaN === 'number'`, so a NaN
delta is not rejected with 400; it reaches `actualizarInventario`, which
stores a NaN stock (3 + NaN = NaN, and NaN < 0 is false so the clamp does
not fire) and the route answers 200. -/
theorem PATCH_counterexample :
    PATCH "p1" (.num .nan)
        (.datos [{ id := "p1", nombre := "Laptop", marca := "Dell",
                   inventarioActual := .num 3 }]) =
      (.ok { id := "p1", nombre := "Laptop", marca := "Dell",
             inventarioActual := .nan },
       .datos [{ id := "p1", nombre := "Laptop", marca := "Dell",
                 inventarioActual := .nan }]) := by
  rfl

/-- C5 (amended): the adjustment route rejects with 400 exactly when the
supplied `cantidad` is not of number type (so `NaN` and the infinities
are NOT rejected); for every value of number type — finite or not — the
request is passed through to `actualizarInventario`, whose outcome fully
determines the response and the resulting state. -/
theorem PATCH_validacion (id : String) (c : JSValue) (fs : FileState) :
    (((PATCH id c fs).1 = .badRequest) ↔ ∀ j : JSNum, c ≠ .num j) ∧
    (∀ j : JSNum, c = .num j →
      (PATCH id c fs).2 = (actualizarInventario id j fs).2 ∧
      (((PATCH id c fs).1 = .notFound) ↔
        (actualizarInventario id j fs).1 = none) ∧
      (∀ p : Producto, ((PATCH id c fs).1 = .ok p) ↔
        (actualizarInventario id j fs).1 = some p)) := by
  cases c with
  | undef =>
    exact ⟨⟨fun _ j hj => JSValue.noConfusion hj, fun _ => rfl⟩,
      fun j hj => JSValue.noConfusion hj⟩
  | nullv =>
    exact ⟨⟨fun _ j hj => JSValue.noConfusion hj, fun _ => rfl⟩,
      fun j hj => JSValue.noConfusion hj⟩
  | str s =>
    exact ⟨⟨fun _ j hj => JSValue.noConfusion hj, fun _ => rfl⟩,
      fun j hj => JSValue.noConfusion hj⟩
  | boolean b =>
    exact ⟨⟨fun _ j hj => JSValue.noConfusion hj, fun _ => rfl⟩,
      fun j hj => JSValue.noConfusion hj⟩
  | num j0 =>
    rcases h : actualizarInventario id j0 fs with ⟨r, fs2⟩
    rcases r with _ | p0
    · have hp : PATCH id (.num j0) fs = (.notFound, fs2) := by
        simp [PATCH, h]
      refine ⟨⟨fun habs => ?_, fun hall => absurd rfl (hall j0)⟩, ?_⟩
      · rw [hp] at habs
        exact PatchResult.noConfusion habs
      · intro j hj
        injection hj with he
        subst he
        rw [hp, h]
        exact ⟨rfl, by simp,
          fun p => ⟨fun habs => PatchResult.noConfusion habs,
            fun habs => Option.noConfusion habs⟩⟩
    · have hp : PATCH id (.num j0) fs = (.ok p0, fs2) := by
        simp [PATCH, h]
      refine ⟨⟨fun habs => ?_, fun hall => absurd rfl (hall j0)⟩, ?_⟩
      · rw [hp] at habs
        exact PatchResult.noConfusion habs
      · intro j hj
        injection hj with he
        subst he
        rw [hp, h]
        refine ⟨rfl, ⟨fun habs => PatchResult.noConfusion habs,
          fun habs => Option.noConfusion habs⟩, fun p => ?_⟩
        constructor
        · intro hk
          injection hk with hk'
          rw [hk']
        · intro hk
          injection hk with hk'
          rw [hk']

/-- Witness for the amended C5: a finite delta of 2 is passed through,
the route's resulting state being that of `actualizarInventario`. -/
theorem PATCH_validacion_witness :
    (PATCH "p1" (.num (.num 2)) .missing).2 =
      (actualizarInventario "p1" (.num 2) .missing).2 :=
  ((PATCH_validacion "p1" (.num (.num 2)) .missing).2 (.num 2) rfl).1

/-- Counterexample to C7 as stated: the relational (Supabase) read does
NOT surface backend read errors distinctly — an error response is logged
and masked as an ordinary empty list (`.ok []`), exactly like the other
two variants; nothing is thrown. -/
theorem leerProductosDesdeSupabase_counterexample :
    leerProductosDesdeSupabase (.errorLectura "fallo de red") = .ok [] :=
  rfl

/-- C7 (amended): every one of the three variants fails soft on read —
the Supabase variant returns an ordinary `[]` on an error response, on a
thrown exception and on null data; the KV variant returns `[]` on a
thrown error and on an absent key; the local-file variant returns `[]` on
a missing and on an unparseable file. -/
theorem leer_failSoft_todasLasVariantes :
    (∀ e : String, leerProductosDesdeSupabase (.errorLectura e) = .ok [] ∧
      leerProductosDesdeSupabase (.excepcion e) = .ok []) ∧
    leerProductosDesdeSupabase (.datos none) = .ok [] ∧
    (∀ e : String, leerProductosDesdeKV (.error e) = []) ∧
    leerProductosDesdeKV .vacio = [] ∧
    leerProductos .missing = [] ∧
    leerProductos .corrupt = [] :=
  ⟨fun _ => ⟨rfl, rfl⟩, rfl, fun _ => rfl, rfl, rfl, rfl⟩

/-- Counterexample to C8 as stated: when the delete-all step fails, the
failure is only logged — the insert still runs, the call returns
successfully (no error propagated), and the old row survives, so the
collection is not replaced either. -/
theorem guardarProductosEnSupabase_counterexample :
    guardarProductosEnSupabase
        { errorBorrado := some "tabla inaccesible", errorInsercion := none }
        [{ id := "n1", nombre := "Laptop", marca := "Dell",
           inventarioActual := .num 5 }]
        [{ id := "v1", nombre := "Mouse", marca := "HP",
           inventarioActual := .num 2 }] =
      (.ok (),
       [{ id := "v1", nombre := "Mouse", marca := "HP",
          inventarioActual := .num 2 },
        { id := "n1", nombre := "Laptop", marca := "Dell",
          inventarioActual := .num 5 }]) :=
  rfl

/-- C8 (amended): when the delete-all step succeeds, the Supabase
`guardarProductos` replaces the stored collection with exactly the given
products (inserting nothing when the list is empty), and a bulk-insert
failure on a nonempty list propagates the descriptive error upward; a
failure of the delete step, however, is only logged: the call still
returns successfully. -/
theorem guardarProductosEnSupabase_spec (productos tabla : List Producto)
    (e : String) :
    (guardarProductosEnSupabase
        { errorBorrado := none, errorInsercion := none } productos tabla =
      (.ok (), productos)) ∧
    (productos ≠ [] →
      guardarProductosEnSupabase
          { errorBorrado := none, errorInsercion := some e } productos tabla =
        (.error "No se pudo guardar los productos en Supabase", [])) ∧
    (guardarProductosEnSupabase
        { errorBorrado := some e, errorInsercion := none } productos tabla =
      (.ok (), tabla ++ productos)) := by
  have hpos : ∀ (x : Producto) (xs : List Producto), (x :: xs).length > 0 :=
    fun _ xs => Nat.succ_pos xs.length
  refine ⟨?_, ?_, ?_⟩
  · cases productos with
    | nil => rfl
    | cons x xs =>
      simp only [guardarProductosEnSupabase]
      rw [if_pos (hpos x xs)]
      rfl
  · intro hne
    cases productos with
    | nil => exact absurd rfl hne
    | cons x xs =>
      simp only [guardarProductosEnSupabase]
      rw [if_pos (hpos x xs)]
  · cases productos with
    | nil =>
      simp only [guardarProductosEnSupabase]
      rw [if_neg (by simp), List.append_nil]
    | cons x xs =>
      simp only [guardarProductosEnSupabase]
      rw [if_pos (hpos x xs)]

/-- Witness for the amended C8: a failing bulk insert of one product
propagates the descriptive error. -/
theorem guardarProductosEnSupabase_spec_witness :
    guardarProductosEnSupabase
        { errorBorrado := none, errorInsercion := some "clave duplicada" }
        [{ id := "n1", nombre := "Laptop", marca := "Dell",
           inventarioActual := .num 5 }] [] =
      (.error "No se pudo guardar los productos en Supabase", []) :=
  ((guardarProductosEnSupabase_spec
      [{ id := "n1", nombre := "Laptop", marca := "Dell",
         inventarioActual := .num 5 }] [] "clave duplicada").2.1
    (by simp))

/-- Counterexample to C9 as stated: with no remote configuration and
outside development mode, a freshly created product is NOT visible to the
very next read of the same process — the save is a no-op and the read
returns `[]` — because the fallback holds no in-process collection at
all. -/
theorem crearProductoKVLocal_counterexample :
    leerProductosDesdeKVLocal false
        (crearProductoKVLocal false "Laptop" "Dell" (.num 5) "id9"
          .missing).2 = [] :=
  rfl

/-- C9 (amended): the no-remote-configuration fallback keeps no
in-process collection; data lives only in the local file, which is
written and read only in development mode.  In development a created
product is appended and visible to the next read; in any other mode the
save leaves storage untouched and every read returns `[]`, so data does
not even survive between two operations of one process. -/
theorem crearProductoKVLocal_spec (nombre marca : String) (inv : JSNum)
    (idGen : String) (fs : FileState) :
    (leerProductosDesdeKVLocal true
        (crearProductoKVLocal true nombre marca inv idGen fs).2 =
      leerProductosDesdeKVLocal true fs ++
        [{ id := idGen, nombre := nombre, marca := marca,
           inventarioActual := inv }]) ∧
    ((crearProductoKVLocal false nombre marca inv idGen fs).2 = fs) ∧
    (leerProductosDesdeKVLocal false fs = []) := by
  refine ⟨?_, rfl, rfl⟩
  cases fs <;> rfl
